import Mathlib

/-!
Verification of the financial time-series derivation module and the
natural-language "ask" pipeline of the sip-mvp dashboard.

Embedding conventions:
* `src/lib/utils/financials.ts` stores revenue/EBITDA/wages as
  `string | null` holding locale-formatted decimal text; under the stated
  data-quality precondition (parseable numeric text or true null) we model
  such a field as `Option ℚ` carrying the parsed value, and `toNumber`
  as the null-to-zero coercion it performs after separator stripping.
* JavaScript `Array.prototype.sort` with comparator `(a, b) => a.year - b.year`
  is specified by ECMAScript to produce a stable sort; we model it with
  `List.insertionSort` on `·.year ≤ ·.year`, which is stable in the same sense.
* JavaScript floating-point arithmetic is idealised: exact field arithmetic is
  carried out in `ℚ`, and `Math.pow` (a fractional power) in `ℝ` via `rpow`.
* Strings are `List Char`.
-/

/-- A row of the `financials` table (`src/lib/db/schema.ts`), restricted to the
fields the derivation core reads.  Numeric columns are nullable decimal text in
the store; see the embedding conventions above. -/
structure Financial where
  id : ℤ
  clubId : ℤ
  year : ℤ
  revenue : Option ℚ
  ebitda : Option ℚ
  wages : Option ℚ
deriving DecidableEq

instance : Inhabited Financial := ⟨⟨0, 0, 0, none, none, none⟩⟩

/-- The `FinancialMetric` output type (`@/types/db`, reproduced in
`src/lib/utils/csv.ts` lines 66-75): `revenue` and `ebitda` are plain numbers,
while `wages`, `yoy_change` and `yoy_percentage` are `number | null`. -/
structure FinancialMetric where
  id : ℤ
  club_id : ℤ
  year : ℤ
  revenue : ℚ
  ebitda : ℚ
  wages : Option ℚ
  yoy_change : Option ℚ
  yoy_percentage : Option ℚ
deriving DecidableEq

instance : Inhabited FinancialMetric := ⟨⟨0, 0, 0, 0, 0, none, none, none⟩⟩

/-- `toNumber` (`src/lib/utils/formatters.ts` lines 74-79): null becomes `0`;
otherwise the separator-stripped text parses to the carried rational. -/
def toNumber : Option ℚ → ℚ
  | none => 0
  | some v => v

/-- The sort relation of the comparator `(a, b) => a.year - b.year`. -/
def byYear (a b : Financial) : Prop := a.year ≤ b.year

instance : DecidableRel byYear := fun a b => inferInstanceAs (Decidable (a.year ≤ b.year))

instance : IsTotal Financial byYear := ⟨fun a b => Int.le_total a.year b.year⟩

instance : IsTrans Financial byYear := ⟨fun _ _ _ h₁ h₂ => le_trans h₁ h₂⟩

/-- `[...financials].sort((a, b) => a.year - b.year)` — a stable sort by
ascending year. -/
def sortByYear (financials : List Financial) : List Financial :=
  List.insertionSort byYear financials

/-- The metric record built for `sorted[index]` in the `map` callback of
`calculateYoY` (`src/lib/utils/financials.ts` lines 8-43). -/
def metricAt (sorted : List Financial) (index : ℕ) : FinancialMetric :=
  let current := sorted.getD index default
  let revenue := toNumber current.revenue
  let ebitda := toNumber current.ebitda
  let wages := toNumber current.wages
  if index = 0 then
    { id := current.id, club_id := current.clubId, year := current.year,
      revenue := revenue, ebitda := ebitda, wages := some wages,
      yoy_change := none, yoy_percentage := none }
  else
    let previous := sorted.getD (index - 1) default
    let previousRevenue := toNumber previous.revenue
    let change := revenue - previousRevenue
    let percentage : Option ℚ :=
      if previousRevenue ≠ 0 then some (change / previousRevenue * 100) else none
    { id := current.id, club_id := current.clubId, year := current.year,
      revenue := revenue, ebitda := ebitda, wages := some wages,
      yoy_change := some change, yoy_percentage := percentage }

/-- `calculateYoY` (`src/lib/utils/financials.ts` lines 4-44): sort a copy of
the input by year ascending, then map each position to its metric record. -/
def calculateYoY (financials : List Financial) : List FinancialMetric :=
  let sorted := sortByYear financials
  (List.range sorted.length).map (metricAt sorted)

example :
    calculateYoY
      [⟨1, 1, 2020, some 100, some 10, some 50⟩,
       ⟨2, 1, 2021, some 120, some 12, some 55⟩] =
      [⟨1, 1, 2020, 100, 10, some 50, none, none⟩,
       ⟨2, 1, 2021, 120, 12, some 55, some 20, some 20⟩] := by
  norm_num [calculateYoY, sortByYear, List.insertionSort, List.orderedInsert, byYear,
    List.range_succ, metricAt, toNumber]

example :
    calculateYoY [⟨1, 1, 2020, some 0, none, none⟩, ⟨2, 1, 2021, some 100, none, none⟩] =
      [⟨1, 1, 2020, 0, 0, some 0, none, none⟩,
       ⟨2, 1, 2021, 100, 0, some 0, some 100, none⟩] := by
  norm_num [calculateYoY, sortByYear, List.insertionSort, List.orderedInsert, byYear,
    List.range_succ, metricAt, toNumber]

/-- The sort relation used by `calculateCAGRFromMetrics`'s comparator. -/
def byYearM (a b : FinancialMetric) : Prop := a.year ≤ b.year

instance : DecidableRel byYearM := fun a b => inferInstanceAs (Decidable (a.year ≤ b.year))

instance : IsTotal FinancialMetric byYearM := ⟨fun a b => Int.le_total a.year b.year⟩

instance : IsTrans FinancialMetric byYearM := ⟨fun _ _ _ h₁ h₂ => le_trans h₁ h₂⟩

/-- `[...metrics].sort((a, b) => a.year - b.year)`. -/
def sortByYearM (metrics : List FinancialMetric) : List FinancialMetric :=
  List.insertionSort byYearM metrics

/-- `calculateCAGR` (`src/lib/utils/financials.ts` lines 46-61).  `Math.pow`
over floats is idealised as real exponentiation (`rpow`). -/
noncomputable def calculateCAGR (financials : List Financial) : Option ℝ :=
  if financials.length < 2 then none
  else
    let sorted := sortByYear financials
    let firstRevenue := toNumber (sorted.getD 0 default).revenue
    let lastRevenue := toNumber (sorted.getD (sorted.length - 1) default).revenue
    if firstRevenue ≤ 0 ∨ lastRevenue ≤ 0 then none
    else
      let years := (sorted.getD (sorted.length - 1) default).year - (sorted.getD 0 default).year
      if years ≤ 0 then none
      else some ((((lastRevenue : ℝ) / (firstRevenue : ℝ)) ^ ((1 : ℝ) / (years : ℝ)) - 1) * 100)

/-- `calculateCAGRFromMetrics` (`src/lib/utils/financials.ts` lines 64-79). -/
noncomputable def calculateCAGRFromMetrics (metrics : List FinancialMetric) : Option ℝ :=
  if metrics.length < 2 then none
  else
    let sorted := sortByYearM metrics
    let firstRevenue := (sorted.getD 0 default).revenue
    let lastRevenue := (sorted.getD (sorted.length - 1) default).revenue
    if firstRevenue ≤ 0 ∨ lastRevenue ≤ 0 then none
    else
      let years := (sorted.getD (sorted.length - 1) default).year - (sorted.getD 0 default).year
      if years ≤ 0 then none
      else some ((((lastRevenue : ℝ) / (firstRevenue : ℝ)) ^ ((1 : ℝ) / (years : ℝ)) - 1) * 100)

/-!
Mutable-array semantics for the aliasing/frame claims.  A JavaScript array is
a reference into a heap of array contents; `[...a]` allocates a fresh array
with the same contents, and `.sort()` mutates the array it is called on in
place.  Each source function is embedded as a state-passing program over the
heap so that "does the call mutate the caller's array?" is expressible.
-/

/-- A heap of arrays of `α`; a reference is an index into the allocation list. -/
abbrev Heap (α : Type) := List (List α)

/-- Dereference an array. -/
def readArr {α : Type} (h : Heap α) (r : ℕ) : List α := List.getD h r []

/-- Overwrite the contents of array `r` in place. -/
def writeArr {α : Type} (h : Heap α) (r : ℕ) (v : List α) : Heap α := List.set h r v

/-- Allocate a fresh array holding `v`; returns the new heap and the reference. -/
def allocArr {α : Type} (h : Heap α) (v : List α) : Heap α × ℕ := (h ++ [v], h.length)

/-- `calculateYoY` at the array-effect level: `[...financials]` allocates a
copy, `.sort(...)` mutates that copy in place, and the map reads it. -/
def calculateYoYProg (h : Heap Financial) (r : ℕ) : Heap Financial × List FinancialMetric :=
  let financials := readArr h r
  let alloc := allocArr h financials
  let h2 := writeArr alloc.1 alloc.2 (List.insertionSort byYear (readArr alloc.1 alloc.2))
  let sorted := readArr h2 alloc.2
  (h2, (List.range sorted.length).map (metricAt sorted))

/-- `calculateCAGR` at the array-effect level.  Every return after the sort
leaves the heap in the same post-sort state, so the heap component is hoisted
out of the guards. -/
noncomputable def calculateCAGRProg (h : Heap Financial) (r : ℕ) : Heap Financial × Option ℝ :=
  let financials := readArr h r
  if financials.length < 2 then (h, none)
  else
    let alloc := allocArr h financials
    let h2 := writeArr alloc.1 alloc.2 (List.insertionSort byYear (readArr alloc.1 alloc.2))
    let sorted := readArr h2 alloc.2
    let firstRevenue := toNumber (sorted.getD 0 default).revenue
    let lastRevenue := toNumber (sorted.getD (sorted.length - 1) default).revenue
    (h2,
      if firstRevenue ≤ 0 ∨ lastRevenue ≤ 0 then none
      else
        let years := (sorted.getD (sorted.length - 1) default).year - (sorted.getD 0 default).year
        if years ≤ 0 then none
        else some ((((lastRevenue : ℝ) / (firstRevenue : ℝ)) ^ ((1 : ℝ) / (years : ℝ)) - 1) * 100))

/-- `calculateCAGRFromMetrics` at the array-effect level. -/
noncomputable def calculateCAGRFromMetricsProg (h : Heap FinancialMetric) (r : ℕ) :
    Heap FinancialMetric × Option ℝ :=
  let metrics := readArr h r
  if metrics.length < 2 then (h, none)
  else
    let alloc := allocArr h metrics
    let h2 := writeArr alloc.1 alloc.2 (List.insertionSort byYearM (readArr alloc.1 alloc.2))
    let sorted := readArr h2 alloc.2
    let firstRevenue := (sorted.getD 0 default).revenue
    let lastRevenue := (sorted.getD (sorted.length - 1) default).revenue
    (h2,
      if firstRevenue ≤ 0 ∨ lastRevenue ≤ 0 then none
      else
        let years := (sorted.getD (sorted.length - 1) default).year - (sorted.getD 0 default).year
        if years ≤ 0 then none
        else some ((((lastRevenue : ℝ) / (firstRevenue : ℝ)) ^ ((1 : ℝ) / (years : ℝ)) - 1) * 100))

/-- The per-year data of a derived metric with the YoY annotations stripped:
what a metric record owes purely to its source row. -/
structure MetricBase where
  id : ℤ
  club_id : ℤ
  year : ℤ
  revenue : ℚ
  ebitda : ℚ
  wages : Option ℚ
deriving DecidableEq

/-- Strip the YoY annotations from a derived metric. -/
def metricBase (m : FinancialMetric) : MetricBase :=
  ⟨m.id, m.club_id, m.year, m.revenue, m.ebitda, m.wages⟩

/-- The base data `calculateYoY` emits for a given source row. -/
def financialBase (f : Financial) : MetricBase :=
  ⟨f.id, f.clubId, f.year, toNumber f.revenue, toNumber f.ebitda, some (toNumber f.wages)⟩

theorem length_sortByYear (fs : List Financial) : (sortByYear fs).length = fs.length :=
  List.length_insertionSort _ fs

theorem sorted_sortByYear (fs : List Financial) : List.Sorted byYear (sortByYear fs) :=
  List.sorted_insertionSort byYear fs

theorem length_calculateYoY (fs : List Financial) : (calculateYoY fs).length = fs.length := by
  simp [calculateYoY, length_sortByYear]

theorem calculateYoY_getD (fs : List Financial) (i : ℕ) (h : i < fs.length) :
    (calculateYoY fs).getD i default = metricAt (sortByYear fs) i := by
  have h' : i < (calculateYoY fs).length := by rwa [length_calculateYoY]
  rw [List.getD_eq_getElem _ _ h']
  simp only [calculateYoY, List.getElem_map, List.getElem_range]

theorem metricAt_year (sorted : List Financial) (i : ℕ) :
    (metricAt sorted i).year = (sorted.getD i default).year := by
  unfold metricAt; split <;> rfl

theorem metricAt_revenue (sorted : List Financial) (i : ℕ) :
    (metricAt sorted i).revenue = toNumber (sorted.getD i default).revenue := by
  unfold metricAt; split <;> rfl

theorem metricAt_base (sorted : List Financial) (i : ℕ) :
    metricBase (metricAt sorted i) = financialBase (sorted.getD i default) := by
  unfold metricAt metricBase financialBase; split <;> rfl

theorem filter_year_orderedInsert (x : Financial) (l : List Financial) (y : ℤ) :
    (List.orderedInsert byYear x l).filter (fun f => decide (f.year = y)) =
      if x.year = y then x :: l.filter (fun f => decide (f.year = y))
      else l.filter (fun f => decide (f.year = y)) := by
  induction l with
  | nil => simp [List.orderedInsert, List.filter]; split <;> simp_all
  | cons b l ih =>
    by_cases hxb : byYear x b
    · rw [List.orderedInsert_of_le _ _ hxb]
      by_cases hx : x.year = y <;> simp [List.filter, hx]
    · have hlt : b.year < x.year := lt_of_not_le hxb
      simp only [List.orderedInsert, if_neg hxb]
      by_cases hb : b.year = y
      · have hx : ¬ x.year = y := by omega
        simp [List.filter_cons, hb, hx, ih]
      · simp [List.filter_cons, hb, ih]

theorem filter_year_sortByYear (fs : List Financial) (y : ℤ) :
    (sortByYear fs).filter (fun f => decide (f.year = y)) =
      fs.filter (fun f => decide (f.year = y)) := by
  unfold sortByYear
  induction fs with
  | nil => rfl
  | cons b fs ih =>
    simp only [List.insertionSort, filter_year_orderedInsert, ih]
    by_cases hb : b.year = y <;> simp [List.filter_cons, hb]

theorem map_metricBase_calculateYoY (fs : List Financial) :
    (calculateYoY fs).map metricBase = (sortByYear fs).map financialBase := by
  apply List.ext_getElem
  · simp [length_calculateYoY, length_sortByYear]
  · intro i h1 h2
    simp only [calculateYoY, List.map_map, List.getElem_map, List.getElem_range]
    rw [Function.comp_apply, metricAt_base,
      List.getD_eq_getElem _ _ (by simpa using h2)]

theorem metricAt_zero (S : List Financial) :
    (metricAt S 0).yoy_change = none ∧ (metricAt S 0).yoy_percentage = none := by
  unfold metricAt; simp

theorem metricAt_succ_yoy_change (S : List Financial) (i : ℕ) :
    (metricAt S (i + 1)).yoy_change =
      some (toNumber (S.getD (i + 1) default).revenue -
        toNumber (S.getD i default).revenue) := by
  unfold metricAt
  rw [if_neg (Nat.succ_ne_zero i)]
  simp

theorem metricAt_succ_yoy_percentage (S : List Financial) (i : ℕ) :
    (metricAt S (i + 1)).yoy_percentage =
      if toNumber (S.getD i default).revenue ≠ 0 then
        some ((toNumber (S.getD (i + 1) default).revenue -
          toNumber (S.getD i default).revenue) / toNumber (S.getD i default).revenue * 100)
      else none := by
  unfold metricAt
  rw [if_neg (Nat.succ_ne_zero i)]
  simp

/-- C1.  In the sequence returned by `calculateYoY`, the first element in year
order has null `yoy_change` and `yoy_percentage`; every subsequent element's
`yoy_change` is its revenue minus the immediately preceding element's revenue
(year gaps treated as adjacent), and its `yoy_percentage` is null exactly when
the preceding element's revenue is `0`, otherwise
`yoy_change / previous revenue * 100`. -/
theorem claimC1_yoy_first_null_and_deltas (fs : List Financial) :
    (0 < (calculateYoY fs).length →
      ((calculateYoY fs).getD 0 default).yoy_change = none ∧
      ((calculateYoY fs).getD 0 default).yoy_percentage = none) ∧
    (∀ i : ℕ, i + 1 < (calculateYoY fs).length →
      ((calculateYoY fs).getD (i + 1) default).yoy_change =
        some (((calculateYoY fs).getD (i + 1) default).revenue -
          ((calculateYoY fs).getD i default).revenue) ∧
      (((calculateYoY fs).getD (i + 1) default).yoy_percentage = none ↔
        ((calculateYoY fs).getD i default).revenue = 0) ∧
      (((calculateYoY fs).getD i default).revenue ≠ 0 →
        ((calculateYoY fs).getD (i + 1) default).yoy_percentage =
          some ((((calculateYoY fs).getD (i + 1) default).revenue -
            ((calculateYoY fs).getD i default).revenue) /
            ((calculateYoY fs).getD i default).revenue * 100))) := by
  constructor
  · intro h
    have h0 : 0 < fs.length := by rwa [length_calculateYoY] at h
    rw [calculateYoY_getD fs 0 h0]
    exact metricAt_zero _
  · intro i hi
    have hi' : i + 1 < fs.length := by rwa [length_calculateYoY] at hi
    rw [calculateYoY_getD fs (i + 1) hi', calculateYoY_getD fs i (by omega)]
    rw [metricAt_revenue, metricAt_revenue, metricAt_succ_yoy_change,
      metricAt_succ_yoy_percentage]
    by_cases hz : toNumber ((sortByYear fs).getD i default).revenue = 0 <;>
      simp [hz]

theorem pairwise_year_calculateYoY (fs : List Financial) :
    (calculateYoY fs).Pairwise (fun a b => a.year ≤ b.year) := by
  rw [List.pairwise_iff_getElem]
  intro i j hi hj hij
  simp only [calculateYoY, List.getElem_map, List.getElem_range] at hi hj ⊢
  rw [metricAt_year, metricAt_year,
    List.getD_eq_getElem _ _ (by simpa using hi),
    List.getD_eq_getElem _ _ (by simpa using hj)]
  have hs := sorted_sortByYear fs
  rw [List.Sorted, List.pairwise_iff_getElem] at hs
  exact hs i j (by simpa using hi) (by simpa using hj) hij

/-- C3.  `calculateYoY` output has the input's length, is sorted ascending by
year, and equal-year elements keep their relative input order (witnessed by
the per-year filtered subsequences agreeing, modulo the base-field map the
derivation applies to each record). -/
theorem claimC3_yoy_length_sorted_stable (fs : List Financial) :
    (calculateYoY fs).length = fs.length ∧
    (calculateYoY fs).Pairwise (fun a b => a.year ≤ b.year) ∧
    ∀ y : ℤ, ((calculateYoY fs).filter (fun m => decide (m.year = y))).map metricBase =
      (fs.filter (fun f => decide (f.year = y))).map financialBase := by
  refine ⟨length_calculateYoY fs, pairwise_year_calculateYoY fs, ?_⟩
  · intro y
    have h1 : ((calculateYoY fs).map metricBase).filter
        (fun b : MetricBase => decide (b.year = y)) =
        ((calculateYoY fs).filter
          ((fun b : MetricBase => decide (b.year = y)) ∘ metricBase)).map metricBase :=
      List.filter_map metricBase (calculateYoY fs)
    have h2 : ((sortByYear fs).map financialBase).filter
        (fun b : MetricBase => decide (b.year = y)) =
        ((sortByYear fs).filter
          ((fun b : MetricBase => decide (b.year = y)) ∘ financialBase)).map financialBase :=
      List.filter_map financialBase (sortByYear fs)
    calc ((calculateYoY fs).filter (fun m => decide (m.year = y))).map metricBase
        = (((calculateYoY fs).map metricBase).filter
            (fun b : MetricBase => decide (b.year = y))) := h1.symm
      _ = (((sortByYear fs).map financialBase).filter
            (fun b : MetricBase => decide (b.year = y))) := by
            rw [map_metricBase_calculateYoY]
      _ = ((sortByYear fs).filter (fun f => decide (f.year = y))).map financialBase := h2
      _ = (fs.filter (fun f => decide (f.year = y))).map financialBase := by
            rw [filter_year_sortByYear]

/-- A two-record input used to instantiate the derivation theorems. -/
def exTwo : List Financial :=
  [⟨1, 1, 2020, some 100, some 10, some 50⟩, ⟨2, 1, 2021, some 120, some 12, some 55⟩]

theorem claimC1_witness :
    ((calculateYoY exTwo).getD 0 default).yoy_change = none ∧
    ((calculateYoY exTwo).getD 1 default).yoy_change =
      some (((calculateYoY exTwo).getD 1 default).revenue -
        ((calculateYoY exTwo).getD 0 default).revenue) := by
  have h := claimC1_yoy_first_null_and_deltas exTwo
  exact ⟨(h.1 (by rw [length_calculateYoY]; decide)).1,
    (h.2 0 (by rw [length_calculateYoY]; decide)).1⟩

/-- A single record with every nullable numeric field null. -/
def exAllNull : List Financial := [⟨1, 1, 2020, none, none, none⟩]

theorem calculateYoY_exAllNull :
    calculateYoY exAllNull = [⟨1, 1, 2020, 0, 0, some 0, none, none⟩] := by
  norm_num [exAllNull, calculateYoY, sortByYear, List.insertionSort, List.orderedInsert,
    byYear, List.range_succ, metricAt, toNumber]

/-- C4 as stated: a null `wages` field would be emitted as null, while null
`revenue`/`ebitda` are emitted as `0`. -/
def claimC4Statement : Prop :=
  ∀ fs : List Financial, ∀ f ∈ fs, ∀ m ∈ calculateYoY fs, m.id = f.id →
    (f.wages = none → m.wages = none) ∧
    (f.revenue = none → m.revenue = 0) ∧
    (f.ebitda = none → m.ebitda = 0)

/-- C4 fails on the code: for the record `⟨1, 1, 2020, null, null, null⟩` the
emitted metric carries `wages = some 0`, not null — `calculateYoY` pipes wages
through the same null-to-zero `toNumber` as revenue and EBITDA. -/
theorem claimC4_counterexample : ¬ claimC4Statement := by
  intro h
  have hm := (h exAllNull ⟨1, 1, 2020, none, none, none⟩ (by simp [exAllNull])
    ⟨1, 1, 2020, 0, 0, some 0, none, none⟩
    (by rw [calculateYoY_exAllNull]; exact List.mem_singleton.mpr rfl) rfl).1 rfl
  simp at hm

/-- C4 amended: every metric emitted by `calculateYoY` reports
`wages = some (toNumber f.wages)` for its source record `f` — so a null wages
field is emitted as `0` (wrapped as a present value), exactly like null
revenue and EBITDA, which are emitted as `0`. -/
theorem claimC4_wages_zero_amended (fs : List Financial) :
    ∀ m ∈ calculateYoY fs, ∃ f ∈ fs,
      m.wages = some (toNumber f.wages) ∧
      m.revenue = toNumber f.revenue ∧
      m.ebitda = toNumber f.ebitda := by
  intro m hm
  simp only [calculateYoY, List.mem_map, List.mem_range] at hm
  obtain ⟨i, hi, rfl⟩ := hm
  refine ⟨(sortByYear fs).getD i default, ?_, ?_⟩
  · have : (sortByYear fs).getD i default ∈ sortByYear fs := by
      rw [List.getD_eq_getElem _ _ hi]
      exact List.getElem_mem _
    simpa [sortByYear] using this
  · have hb := metricAt_base (sortByYear fs) i
    refine ⟨?_, ?_, ?_⟩
    · exact congrArg MetricBase.wages hb
    · exact congrArg MetricBase.revenue hb
    · exact congrArg MetricBase.ebitda hb

theorem claimC4_witness :
    ∃ f ∈ exAllNull,
      (FinancialMetric.mk 1 1 2020 0 0 (some 0) none none).wages = some (toNumber f.wages) ∧
      (FinancialMetric.mk 1 1 2020 0 0 (some 0) none none).revenue = toNumber f.revenue ∧
      (FinancialMetric.mk 1 1 2020 0 0 (some 0) none none).ebitda = toNumber f.ebitda :=
  claimC4_wages_zero_amended exAllNull ⟨1, 1, 2020, 0, 0, some 0, none, none⟩
    (by rw [calculateYoY_exAllNull]; exact List.mem_singleton.mpr rfl)

theorem readArr_write_frame {α : Type} (h : Heap α) (v w : List α) {r : ℕ}
    (hr : r < h.length) :
    readArr (writeArr (h ++ [v]) h.length w) r = readArr h r := by
  unfold readArr writeArr
  rw [List.getD_eq_getElem?_getD, List.getElem?_set_ne (by omega),
    ← List.getD_eq_getElem?_getD, List.getD_append _ _ _ _ hr]

theorem readArr_write_self {α : Type} (h : Heap α) (v w : List α) :
    readArr (writeArr (h ++ [v]) h.length w) h.length = w := by
  unfold readArr writeArr
  have hl : h.length < (h ++ [v]).length := by simp
  rw [List.getD_eq_getElem?_getD]
  simp [List.getElem?_set, hl]

theorem readArr_append_self {α : Type} (h : Heap α) (v : List α) :
    readArr (h ++ [v]) h.length = v := by
  unfold readArr
  rw [List.getD_eq_getElem?_getD]
  simp

/-- C10.  All three derivation functions sort a copy: after each call the
caller's array holds exactly the elements it held before, in the same order,
and the call's result agrees with the pure function of the array's contents. -/
theorem claimC10_input_arrays_unchanged :
    (∀ (h : Heap Financial) (r : ℕ), r < h.length →
      readArr (calculateYoYProg h r).1 r = readArr h r ∧
      (calculateYoYProg h r).2 = calculateYoY (readArr h r)) ∧
    (∀ (h : Heap Financial) (r : ℕ), r < h.length →
      readArr (calculateCAGRProg h r).1 r = readArr h r ∧
      (calculateCAGRProg h r).2 = calculateCAGR (readArr h r)) ∧
    (∀ (h : Heap FinancialMetric) (r : ℕ), r < h.length →
      readArr (calculateCAGRFromMetricsProg h r).1 r = readArr h r ∧
      (calculateCAGRFromMetricsProg h r).2 = calculateCAGRFromMetrics (readArr h r)) := by
  refine ⟨fun h r hr => ?_, fun h r hr => ?_, fun h r hr => ?_⟩
  · simp only [calculateYoYProg, allocArr, readArr_write_self, readArr_append_self]
    exact ⟨readArr_write_frame h _ _ hr, rfl⟩
  · by_cases hlen : (readArr h r).length < 2
    · simp only [calculateCAGRProg, calculateCAGR, allocArr, hlen, if_true]
      exact ⟨trivial, trivial⟩
    · simp only [calculateCAGRProg, calculateCAGR, allocArr, hlen, if_false,
        readArr_write_self, readArr_append_self, sortByYear]
      exact ⟨readArr_write_frame h _ _ hr, trivial⟩
  · by_cases hlen : (readArr h r).length < 2
    · simp only [calculateCAGRFromMetricsProg, calculateCAGRFromMetrics, allocArr, hlen, if_true]
      exact ⟨trivial, trivial⟩
    · simp only [calculateCAGRFromMetricsProg, calculateCAGRFromMetrics, allocArr, hlen, if_false,
        readArr_write_self, readArr_append_self, sortByYearM]
      exact ⟨readArr_write_frame h _ _ hr, trivial⟩

theorem claimC10_witness :
    readArr (calculateYoYProg [exTwo] 0).1 0 = readArr [exTwo] 0 ∧
    readArr (calculateCAGRProg [exTwo] 0).1 0 = readArr [exTwo] 0 ∧
    readArr (calculateCAGRFromMetricsProg [calculateYoY exTwo] 0).1 0 =
      readArr [calculateYoY exTwo] 0 :=
  ⟨(claimC10_input_arrays_unchanged.1 [exTwo] 0 (by decide)).1,
   (claimC10_input_arrays_unchanged.2.1 [exTwo] 0 (by decide)).1,
   (claimC10_input_arrays_unchanged.2.2 [calculateYoY exTwo] 0 (by decide)).1⟩

/-- The revenue the CAGR guard reads first: head of the year-sorted input. -/
def cagrFirst (fs : List Financial) : ℚ :=
  toNumber ((sortByYear fs).getD 0 default).revenue

/-- The revenue the CAGR guard reads last: end of the year-sorted input. -/
def cagrLast (fs : List Financial) : ℚ :=
  toNumber ((sortByYear fs).getD ((sortByYear fs).length - 1) default).revenue

/-- First year in year order. -/
def firstYear (fs : List Financial) : ℤ := ((sortByYear fs).getD 0 default).year

/-- Last year in year order. -/
def lastYear (fs : List Financial) : ℤ :=
  ((sortByYear fs).getD ((sortByYear fs).length - 1) default).year

theorem cagrFirst_fold (fs : List Financial) :
    toNumber ((sortByYear fs).getD 0 default).revenue = cagrFirst fs := rfl

theorem cagrLast_fold (fs : List Financial) :
    toNumber ((sortByYear fs).getD ((sortByYear fs).length - 1) default).revenue =
      cagrLast fs := rfl

theorem firstYear_fold (fs : List Financial) :
    ((sortByYear fs).getD 0 default).year = firstYear fs := rfl

theorem lastYear_fold (fs : List Financial) :
    ((sortByYear fs).getD ((sortByYear fs).length - 1) default).year = lastYear fs := rfl

theorem firstYear_le_lastYear (fs : List Financial) (h : fs ≠ []) :
    firstYear fs ≤ lastYear fs := by
  have hn : (sortByYear fs).length = fs.length := length_sortByYear fs
  have hpos : 0 < fs.length := List.length_pos.mpr h
  have h0 : 0 < (sortByYear fs).length := by omega
  have h1 : (sortByYear fs).length - 1 < (sortByYear fs).length := by omega
  unfold firstYear lastYear
  rw [List.getD_eq_getElem _ _ h0, List.getD_eq_getElem _ _ h1]
  rcases Nat.eq_zero_or_pos ((sortByYear fs).length - 1) with hz | hp
  · simp [hz]
  · have hs := sorted_sortByYear fs
    rw [List.Sorted, List.pairwise_iff_getElem] at hs
    exact hs 0 _ h0 h1 hp

/-- C2.  `calculateCAGR` is null exactly when there are fewer than two records,
the first or last revenue in year order is ≤ 0, or the first and last years
coincide; otherwise it is `((last/first)^(1/(lastYear − firstYear)) − 1) ×
100`. -/
theorem claimC2_cagr_guards_and_formula (fs : List Financial) :
    (calculateCAGR fs = none ↔
      fs.length < 2 ∨ cagrFirst fs ≤ 0 ∨ cagrLast fs ≤ 0 ∨ lastYear fs = firstYear fs) ∧
    (2 ≤ fs.length → 0 < cagrFirst fs → 0 < cagrLast fs → firstYear fs ≠ lastYear fs →
      calculateCAGR fs =
        some ((((cagrLast fs : ℝ) / (cagrFirst fs : ℝ)) ^
          ((1 : ℝ) / ((lastYear fs - firstYear fs : ℤ) : ℝ)) - 1) * 100)) := by
  constructor
  · by_cases h2 : fs.length < 2
    · simp [calculateCAGR, h2]
    · have hne : fs ≠ [] := by intro h; rw [h] at h2; simp at h2
      have hy := firstYear_le_lastYear fs hne
      simp only [calculateCAGR, if_neg h2]
      constructor
      · intro hnone
        by_cases hg : cagrFirst fs ≤ 0 ∨ cagrLast fs ≤ 0
        · tauto
        · rw [if_neg (by simpa [cagrFirst, cagrLast] using hg)] at hnone
          by_cases hyy : lastYear fs - firstYear fs ≤ 0
          · right; right; right; omega
          · rw [if_neg (by simpa [lastYear, firstYear] using hyy)] at hnone
            simp at hnone
      · intro hcases
        rcases hcases with h | h | h | h
        · omega
        · rw [if_pos (by simpa [cagrFirst, cagrLast] using Or.inl h)]
        · rw [if_pos (by simpa [cagrFirst, cagrLast] using Or.inr h)]
        · by_cases hg : cagrFirst fs ≤ 0 ∨ cagrLast fs ≤ 0
          · rw [if_pos (by simpa [cagrFirst, cagrLast] using hg)]
          · rw [if_neg (by simpa [cagrFirst, cagrLast] using hg),
              if_pos (show _ ≤ (0 : ℤ) by
                simp only [lastYear_fold, firstYear_fold]; omega)]
  · intro h2 hfirst hlast hyear
    have hne : fs ≠ [] := by intro h; rw [h] at h2; simp at h2
    have hy := firstYear_le_lastYear fs hne
    simp only [calculateCAGR, if_neg (by omega : ¬ fs.length < 2)]
    rw [if_neg (by simp only [cagrFirst_fold, cagrLast_fold]; push_neg
                   exact ⟨by linarith, by linarith⟩),
      if_neg (show ¬ _ ≤ (0 : ℤ) by simp only [lastYear_fold, firstYear_fold]; omega)]
    simp only [cagrFirst_fold, cagrLast_fold, lastYear_fold, firstYear_fold]

theorem claimC2_witness :
    calculateCAGR exTwo =
      some ((((cagrLast exTwo : ℝ) / (cagrFirst exTwo : ℝ)) ^
        ((1 : ℝ) / ((lastYear exTwo - firstYear exTwo : ℤ) : ℝ)) - 1) * 100) :=
  (claimC2_cagr_guards_and_formula exTwo).2 (by decide)
    (by norm_num [cagrFirst, sortByYear, List.insertionSort, List.orderedInsert, byYear,
      exTwo, toNumber])
    (by norm_num [cagrLast, sortByYear, List.insertionSort, List.orderedInsert, byYear,
      exTwo, toNumber])
    (by norm_num [firstYear, lastYear, sortByYear, List.insertionSort, List.orderedInsert,
      byYear, exTwo])

/-- C9.  Under the parseable-or-null data precondition (built into the
embedding), neither CAGR entry point ever produces a `NaN` or infinite value:
whenever a value is returned it arises from a power of a strictly positive
ratio with a strictly positive year span — a well-defined finite real —
and in particular is strictly greater than `-100`. -/
theorem claimC9_cagr_never_nan_or_infinite :
    (∀ (fs : List Financial) (c : ℝ), calculateCAGR fs = some c →
      -100 < c ∧ ∃ a b : ℚ, ∃ n : ℤ, 0 < a ∧ 0 < b ∧ 0 < n ∧
        c = (((b : ℝ) / (a : ℝ)) ^ ((1 : ℝ) / (n : ℝ)) - 1) * 100) ∧
    (∀ (ms : List FinancialMetric) (c : ℝ), calculateCAGRFromMetrics ms = some c →
      -100 < c ∧ ∃ a b : ℚ, ∃ n : ℤ, 0 < a ∧ 0 < b ∧ 0 < n ∧
        c = (((b : ℝ) / (a : ℝ)) ^ ((1 : ℝ) / (n : ℝ)) - 1) * 100) := by
  constructor
  · intro fs c h
    simp only [calculateCAGR] at h
    split_ifs at h with h1 hg hyy
    rw [Option.some_inj] at h
    push_neg at hg
    push_neg at hyy
    obtain ⟨hga, hgb⟩ := hg
    have hb : (0 : ℝ) <
        (toNumber (((sortByYear fs).getD ((sortByYear fs).length - 1) default)).revenue : ℝ) /
        (toNumber (((sortByYear fs).getD 0 default)).revenue : ℝ) :=
      div_pos (by exact_mod_cast hgb) (by exact_mod_cast hga)
    have hp := Real.rpow_pos_of_pos hb
      ((1 : ℝ) / ((((sortByYear fs).getD ((sortByYear fs).length - 1) default).year -
        ((sortByYear fs).getD 0 default).year : ℤ) : ℝ))
    refine ⟨by rw [← h]; nlinarith [hp], _, _, _, hga, hgb, hyy, h.symm⟩
  · intro ms c h
    simp only [calculateCAGRFromMetrics] at h
    split_ifs at h with h1 hg hyy
    rw [Option.some_inj] at h
    push_neg at hg
    push_neg at hyy
    obtain ⟨hga, hgb⟩ := hg
    have hb : (0 : ℝ) <
        ((((sortByYearM ms).getD ((sortByYearM ms).length - 1) default)).revenue : ℝ) /
        ((((sortByYearM ms).getD 0 default)).revenue : ℝ) :=
      div_pos (by exact_mod_cast hgb) (by exact_mod_cast hga)
    have hp := Real.rpow_pos_of_pos hb
      ((1 : ℝ) / ((((sortByYearM ms).getD ((sortByYearM ms).length - 1) default).year -
        ((sortByYearM ms).getD 0 default).year : ℤ) : ℝ))
    refine ⟨by rw [← h]; nlinarith [hp], _, _, _, hga, hgb, hyy, h.symm⟩

theorem calculateCAGR_exTwo :
    calculateCAGR exTwo = some ((((120 : ℝ) / 100) ^ ((1 : ℝ) / 1) - 1) * 100) := by
  norm_num [calculateCAGR, sortByYear, List.insertionSort, List.orderedInsert, byYear,
    exTwo, toNumber]

theorem claimC9_witness :
    -100 < ((((120 : ℝ) / 100) ^ ((1 : ℝ) / 1) - 1) * 100) ∧
    ∃ a b : ℚ, ∃ n : ℤ, 0 < a ∧ 0 < b ∧ 0 < n ∧
      ((((120 : ℝ) / 100) ^ ((1 : ℝ) / 1) - 1) * 100) =
        (((b : ℝ) / (a : ℝ)) ^ ((1 : ℝ) / (n : ℝ)) - 1) * 100 :=
  claimC9_cagr_never_nan_or_infinite.1 exTwo _ calculateCAGR_exTwo

theorem sortByYearM_calculateYoY (fs : List Financial) :
    sortByYearM (calculateYoY fs) = calculateYoY fs :=
  List.Sorted.insertionSort_eq (pairwise_year_calculateYoY fs)

/-- C5.  Formula parity of the two CAGR entry points: computing CAGR from the
derived metrics of a record set gives exactly the same result (value or null)
as computing it from the raw records. -/
theorem claimC5_cagr_roundtrip (fs : List Financial) :
    calculateCAGRFromMetrics (calculateYoY fs) = calculateCAGR fs := by
  by_cases h2 : fs.length < 2
  · simp [calculateCAGRFromMetrics, calculateCAGR, length_calculateYoY, h2]
  · have hlen := length_calculateYoY fs
    have hS := length_sortByYear fs
    simp only [calculateCAGRFromMetrics, calculateCAGR, hlen, if_neg h2,
      sortByYearM_calculateYoY, hS]
    rw [calculateYoY_getD fs 0 (by omega), calculateYoY_getD fs (fs.length - 1) (by omega),
      metricAt_revenue, metricAt_revenue, metricAt_year, metricAt_year]

/-!
The `/api/ask` pipeline (`src/app/api/ask/route.ts`).  Questions are
`List Char`.  The two regex probes are embedded operationally: a regex match
is the leftmost position at which the pattern matches, exactly as the engine
scans.  Word characters are ASCII `[A-Za-z0-9_]` (the `\w`/`\b` classes of a
non-unicode JavaScript regex); case-insensitive matching lowers both sides
(ASCII).
-/

/-- The apostrophe character (code 39). -/
def apos : Char := Char.ofNat 39

/-- JavaScript regex word character: ASCII letter, digit or underscore. -/
def isWordChar (c : Char) : Bool := c.isAlphanum || c == '_'

/-- Numeric value of an ASCII digit. -/
def digitVal (c : Char) : ℕ := c.toNat - 48

/-- Does `/\b(20\d{2})\b/` match `q` at position `i`?  Boundaries follow the
regex `\b`: position 0 or a non-word char before, and end-of-string or a
non-word char after (out-of-range reads default to `' '`, a non-word char). -/
def standaloneYearAt (q : List Char) (i : ℕ) : Bool :=
  (i == 0 || !isWordChar (q.getD (i - 1) ' ')) &&
  decide (i + 4 ≤ q.length) &&
  (q.getD i ' ' == '2') && (q.getD (i + 1) ' ' == '0') &&
  (q.getD (i + 2) ' ').isDigit && (q.getD (i + 3) ' ').isDigit &&
  !isWordChar (q.getD (i + 4) ' ')

/-- `parseInt` of the four digits matched at position `i`. -/
def yearValueAt (q : List Char) (i : ℕ) : ℕ :=
  2000 + 10 * digitVal (q.getD (i + 2) ' ') + digitVal (q.getD (i + 3) ' ')

/-- Attempt the year pattern at the head of the suffix `s`, `prev` being the
character just before the suffix (`none` at the start of the string). -/
def yearHere (prev : Option Char) (s : List Char) : Option ℕ :=
  if (match prev with | none => true | some p => !isWordChar p) &&
      decide (4 ≤ s.length) &&
      (s.getD 0 ' ' == '2') && (s.getD 1 ' ' == '0') &&
      (s.getD 2 ' ').isDigit && (s.getD 3 ' ').isDigit &&
      !isWordChar (s.getD 4 ' ')
  then some (2000 + 10 * digitVal (s.getD 2 ' ') + digitVal (s.getD 3 ' '))
  else none

/-- Scan left to right for the first position where the year pattern matches. -/
def findYearFrom (prev : Option Char) : List Char → Option ℕ
  | [] => none
  | c :: rest =>
    match yearHere prev (c :: rest) with
    | some y => some y
    | none => findYearFrom (some c) rest

/-- `question.match(/\b(20\d{2})\b/)` followed by `parseInt` of the capture
(`src/app/api/ask/route.ts` lines 18-19): the first standalone 20xx token. -/
def extractYear (q : List Char) : Option ℕ := findYearFrom none q

example : extractYear "What was X, made in 2022?".toList = some 2022 := by decide

example : extractYear "year 12022 or 20223 or 2a22".toList = none := by decide

/-- The character just before position `k`, `none` at the very start. -/
def prevAt (q : List Char) (k : ℕ) : Option Char :=
  if k = 0 then none else some (q.getD (k - 1) ' ')

theorem getD_drop (q : List Char) (k j : ℕ) (d : Char) :
    (q.drop k).getD j d = q.getD (k + j) d := by
  rw [List.getD_eq_getElem?_getD, List.getD_eq_getElem?_getD, List.getElem?_drop]

theorem yearHere_drop (q : List Char) (k : ℕ) :
    yearHere (prevAt q k) (q.drop k) =
      if standaloneYearAt q k then some (yearValueAt q k) else none := by
  have h1 : (match prevAt q k with | none => true | some p => !isWordChar p) =
      (k == 0 || !isWordChar (q.getD (k - 1) ' ')) := by
    unfold prevAt
    cases k <;> simp
  have h2 : decide (4 ≤ (q.drop k).length) = decide (k + 4 ≤ q.length) := by
    rw [List.length_drop]
    exact decide_eq_decide.mpr (by omega)
  unfold yearHere standaloneYearAt yearValueAt
  rw [h1, h2, getD_drop, getD_drop, getD_drop, getD_drop, getD_drop]
  simp only [Nat.add_zero]

theorem findYearFrom_step (q : List Char) (k : ℕ) (hk : k < q.length) :
    findYearFrom (prevAt q k) (q.drop k) =
      if standaloneYearAt q k then some (yearValueAt q k)
      else findYearFrom (prevAt q (k + 1)) (q.drop (k + 1)) := by
  have hd : q.drop k = q[k] :: q.drop (k + 1) := List.drop_eq_getElem_cons hk
  have hp : (some q[k] : Option Char) = prevAt q (k + 1) := by
    simp [prevAt, List.getD_eq_getElem?_getD, List.getElem?_eq_getElem hk]
  conv_lhs => rw [hd, findYearFrom]
  rw [← hd, yearHere_drop, hp]
  by_cases hs : standaloneYearAt q k <;> simp [hs]

theorem findYearFrom_spec (q : List Char) :
    ∀ n k, q.length - k = n → k ≤ q.length →
      (findYearFrom (prevAt q k) (q.drop k) = none ↔
        ∀ i, k ≤ i → standaloneYearAt q i = false) ∧
      (∀ i, k ≤ i → standaloneYearAt q i = true →
        (∀ j, k ≤ j → j < i → standaloneYearAt q j = false) →
        findYearFrom (prevAt q k) (q.drop k) = some (yearValueAt q i)) := by
  intro n
  induction n with
  | zero =>
    intro k hn hk
    have hd : q.drop k = [] := List.drop_eq_nil_of_le (by omega)
    rw [hd]
    constructor
    · simp only [findYearFrom, true_iff]
      intro i hi
      unfold standaloneYearAt
      have hle : ¬ (i + 4 ≤ q.length) := by omega
      simp [hle]
    · intro i hi hsi _
      exfalso
      unfold standaloneYearAt at hsi
      simp only [Bool.and_eq_true, decide_eq_true_eq] at hsi
      omega
  | succ n ih =>
    intro k hn hk
    have hklt : k < q.length := by omega
    rw [findYearFrom_step q k hklt]
    by_cases hs : standaloneYearAt q k
    · rw [if_pos hs]
      constructor
      · constructor
        · intro h; exact absurd h (by simp)
        · intro hall; exact absurd hs (by simp [hall k le_rfl])
      · intro i hi hsi hmin
        rcases Nat.eq_or_lt_of_le hi with rfl | hlt
        · rfl
        · exact absurd hs (by simp [hmin k le_rfl hlt])
    · rw [if_neg hs]
      have ihk := ih (k + 1) (by omega) (by omega)
      constructor
      · rw [ihk.1]
        constructor
        · intro hall i hi
          rcases Nat.eq_or_lt_of_le hi with rfl | h
          · exact Bool.not_eq_true _ ▸ Bool.eq_false_iff.mpr (fun hc => hs hc)
          · exact hall i (by omega)
        · intro hall i hi
          exact hall i (by omega)
      · intro i hi hsi hmin
        have hik : i ≠ k := by rintro rfl; exact hs hsi
        exact ihk.2 i (by omega) hsi (fun j hj1 hj2 => hmin j (by omega) hj2)

theorem extractYear_none_iff (q : List Char) :
    extractYear q = none ↔ ∀ i, standaloneYearAt q i = false := by
  have h := (findYearFrom_spec q (q.length - 0) 0 rfl (Nat.zero_le _)).1
  simpa [extractYear, prevAt] using h

theorem extractYear_first_match (q : List Char) (i : ℕ)
    (hi : standaloneYearAt q i = true)
    (hmin : ∀ j, j < i → standaloneYearAt q j = false) :
    extractYear q = some (yearValueAt q i) := by
  have h := (findYearFrom_spec q (q.length - 0) 0 rfl (Nat.zero_le _)).2 i (Nat.zero_le _) hi
    (fun j _ hj => hmin j hj)
  simpa [extractYear, prevAt] using h

/-- Case-insensitive literal prefix strip: `some rest` when `s` starts with
`pat` up to ASCII case, else `none`. -/
def stripPrefixCI : List Char → List Char → Option (List Char)
  | [], s => some s
  | _ :: _, [] => none
  | p :: ps, c :: cs => if p.toLower == c.toLower then stripPrefixCI ps cs else none

/-- Case-insensitive `startsWith`. -/
def startsWithCI (pat s : List Char) : Bool := (stripPrefixCI pat s).isSome

/-- The literal tail `'s revenue` of the two possessive patterns. -/
def sRevenuePat : List Char := apos :: "s revenue".toList

/-- Try `<lit>([^']+)'s revenue` at the head of `s`: after the literal, the
greedy `[^']+` can only run to the next apostrophe, which must start
`'s revenue` (case-insensitive). -/
def matchPossessiveAt (lit : List Char) (s : List Char) : Option (List Char) :=
  match stripPrefixCI lit s with
  | none => none
  | some r =>
    let name := r.takeWhile (fun c => !(c == apos))
    let rest := r.dropWhile (fun c => !(c == apos))
    if name.isEmpty then none
    else if startsWithCI sRevenuePat rest then some name else none

/-- The literal ` revenue` of the catch-all pattern. -/
def spaceRevenuePat : List Char := " revenue".toList

/-- Greedy backtracking for `([^']+) revenue` at the head of `s`: try the
longest capture first (`k` counts candidate capture lengths, descending). -/
def greedyRevSplit (s : List Char) : ℕ → Option (List Char)
  | 0 => none
  | k + 1 =>
    if startsWithCI spaceRevenuePat (s.drop (k + 1)) then some (s.take (k + 1))
    else greedyRevSplit s k

/-- Try `([^']+) revenue` at the head of `s`. -/
def matchCatchAllAt (s : List Char) : Option (List Char) :=
  greedyRevSplit s ((s.takeWhile (fun c => !(c == apos))).length)

/-- Leftmost-match scan: try the position matcher at each suffix, left to
right, as the regex engine does. -/
def scanP (m : List Char → Option (List Char)) : List Char → Option (List Char)
  | [] => m []
  | c :: rest =>
    match m (c :: rest) with
    | some x => some x
    | none => scanP m rest

/-- `/what was ([^']+)'s revenue/i`. -/
def pat1 (q : List Char) : Option (List Char) :=
  scanP (matchPossessiveAt "what was ".toList) q

/-- `/tell me about ([^']+)'s revenue/i`. -/
def pat2 (q : List Char) : Option (List Char) :=
  scanP (matchPossessiveAt "tell me about ".toList) q

/-- `/([^']+) revenue/i`. -/
def pat3 (q : List Char) : Option (List Char) := scanP matchCatchAllAt q

/-- `String.prototype.trim`: strip whitespace from both ends. -/
def trimStr (s : List Char) : List Char :=
  ((s.dropWhile Char.isWhitespace).reverse.dropWhile Char.isWhitespace).reverse

/-- The ordered pattern list of `src/app/api/ask/route.ts` lines 29-33. -/
def clubPatterns : List (List Char → Option (List Char)) := [pat1, pat2, pat3]

/-- The extraction loop (`route.ts` lines 35-42): first pattern that matches
wins; its capture is trimmed. -/
def firstPatternMatch (q : List Char) :
    List (List Char → Option (List Char)) → Option (List Char)
  | [] => none
  | p :: ps =>
    match p q with
    | some m => some (trimStr m)
    | none => firstPatternMatch q ps

/-- Club-name extraction: `clubName` after the loop, `none` when no pattern
matched. -/
def extractClubName (q : List Char) : Option (List Char) :=
  firstPatternMatch q clubPatterns

example : pat1 "What was Arsenal FC, made in 2022?".toList = none := by decide

example : extractClubName "  Arsenal   revenue in 2022".toList =
    some "Arsenal".toList := by decide

/-- ASCII digit for `d < 10`. -/
def digitChar (d : ℕ) : Char := Char.ofNat (48 + d)

/-- Little-endian decimal digits of `n`; the fuel (first argument) bounds the
recursion depth and any value `≥ n` is enough. -/
def natDigitsAux : ℕ → ℕ → List Char
  | 0, _ => []
  | _ + 1, 0 => []
  | fuel + 1, n => digitChar (n % 10) :: natDigitsAux fuel (n / 10)

/-- Decimal rendering of a natural number. -/
def natDigits (n : ℕ) : List Char :=
  if n = 0 then ['0'] else (natDigitsAux n n).reverse

/-- Insert a thousands separator after every third digit, working on the
reversed (least-significant-first) digit list; `i` counts digits already
placed in the current group. -/
def commaRev (i : ℕ) : List Char → List Char
  | [] => []
  | c :: rest => if i = 3 then ',' :: c :: commaRev 1 rest else c :: commaRev (i + 1) rest

/-- Thousands-group a digit string, as `toLocaleString` does in the default
(`en-US`-style) locale. -/
def groupDigits (ds : List Char) : List Char := (commaRev 0 ds.reverse).reverse

/-- The fractional digits of `r` thousandths (`r < 1000`), zero-padded to
three places and with trailing zeros stripped — `toLocaleString`'s default
`minimumFractionDigits = 0`, `maximumFractionDigits = 3`. -/
def fracPart3 (r : ℕ) : List Char :=
  (([digitChar (r / 100), digitChar (r / 10 % 10), digitChar (r % 10)].reverse.dropWhile
    (fun c => c == '0')).reverse)

/-- `Number.prototype.toLocaleString()` with no arguments on a non-negative
value, idealised: default locale `en-US`, grouping on, up to 3 fractional
digits, ties rounded half away from zero. -/
def toLocaleStringNN (q : ℚ) : List Char :=
  let m : ℕ := (⌊q * 1000 + 1 / 2⌋).toNat
  let frac := fracPart3 (m % 1000)
  groupDigits (natDigits (m / 1000)) ++ (if frac.isEmpty then [] else '.' :: frac)

/-- `Number.prototype.toLocaleString()` with no arguments, idealised. -/
def toLocaleStr (q : ℚ) : List Char :=
  if q < 0 then '-' :: toLocaleStringNN (-q) else toLocaleStringNN q

/-- `toFixed(1)` on a non-negative value: exactly one fractional digit. -/
def toFixed1NN (q : ℚ) : List Char :=
  let n : ℕ := (⌊q * 10 + 1 / 2⌋).toNat
  natDigits (n / 10) ++ ['.', digitChar (n % 10)]

/-- `Number.prototype.toFixed(1)`, idealised (ties half away from zero). -/
def toFixed1 (q : ℚ) : List Char :=
  if q < 0 then '-' :: toFixed1NN (-q) else toFixed1NN q

/-- Number of characters after the last `'.'` of `s` (0 when `s` has no dot):
the count of displayed decimal places when the suffix holds the fraction. -/
def fracLen (s : List Char) : ℕ :=
  let t := s.reverse.takeWhile (fun c => !(c == '.'))
  if t.length = s.length then 0 else t.length

/-- Currency codes (`src/lib/utils/formatters.ts`). -/
inductive CurrencyCode where
  | GBP
  | EUR
deriving DecidableEq

/-- `rateFromGBP` of the `CURRENCIES` table. -/
def rateFromGBP : CurrencyCode → ℚ
  | .GBP => 1
  | .EUR => 117 / 100

/-- `getCurrencySymbol`. -/
def getCurrencySymbol : CurrencyCode → List Char
  | .GBP => ['£']
  | .EUR => ['€']

/-- The currency code as interpolated text (`${currency}`). -/
def currencyCodeStr : CurrencyCode → List Char
  | .GBP => "GBP".toList
  | .EUR => "EUR".toList

/-- `convertCurrency` (`formatters.ts` lines 31-44). -/
def convertCurrency (amount : Option ℚ) (c1 c2 : CurrencyCode) : Option ℚ :=
  match amount with
  | none => none
  | some a => if c1 = c2 then some a else some (a / rateFromGBP c1 * rateFromGBP c2)

/-- A row of the `clubs` table, restricted to what the ask route reads. -/
structure Club where
  id : ℤ
  name : List Char
deriving DecidableEq

/-- The typed failures of the ask pipeline (§7 of the spec; each corresponds
to one early `NextResponse.json({error})` return of the route). -/
inductive AskError where
  | invalidQuestion
  | missingYear
  | missingClubName
  | clubNotFound (name : List Char)
  | noFinancialData (club : List Char) (year : ℕ)
  | yoyUnavailable
deriving DecidableEq

/-- What a successful resolution carries into the formatting step. -/
structure AskResolved where
  clubName : List Char
  year : ℕ
  convertedRevenue : Option ℚ
  yoyPercentage : Option ℚ
deriving DecidableEq

/-- `POST` body of `src/app/api/ask/route.ts` up to line 82: parse the
question, resolve club and year against the data collaborators, convert the
currency.  The collaborators (`getClubByName`, `getClubFinancialByYear`, and
`getAllClubFinancials` — `getClubFinancialsWithYoY` is
`calculateYoY ∘ getAllClubFinancials` per `src/lib/data/queries.ts` lines
127-131) are parameters. -/
def askResolve (getClubByName : List Char → Option Club)
    (getClubFinancialByYear : ℤ → ℕ → Option Financial)
    (getAllClubFinancials : ℤ → List Financial)
    (currency : CurrencyCode) (question : List Char) : Except AskError AskResolved :=
  match extractYear question with
  | none => .error .missingYear
  | some year =>
    match extractClubName question with
    | none => .error .missingClubName
    | some clubName =>
      match getClubByName clubName with
      | none => .error (.clubNotFound clubName)
      | some club =>
        match getClubFinancialByYear club.id year with
        | none => .error (.noFinancialData club.name year)
        | some _ =>
          let withYoY := calculateYoY (getAllClubFinancials club.id)
          match withYoY.find? (fun f => f.year == (year : ℤ)) with
          | none => .error .yoyUnavailable
          | some currentYearData =>
            .ok ⟨club.name, year,
              convertCurrency (some currentYearData.revenue) CurrencyCode.GBP currency,
              currentYearData.yoy_percentage⟩

/-- `revenueFormatted` (`route.ts` line 85). -/
def revenueFormatted (currency : CurrencyCode) (conv : Option ℚ) : List Char :=
  getCurrencySymbol currency ++
    (match conv with
     | some v => toLocaleStr v
     | none => "N/A".toList) ++ ['M']

/-- `yoyText` (`route.ts` lines 86-88). -/
def yoyTextOf (p : Option ℚ) : List Char :=
  match p with
  | some p => (if 0 < p then ['+'] else []) ++ toFixed1 p ++ ['%']
  | none => "N/A (no prior year data)".toList

/-- The answer template literal (`route.ts` line 90). -/
def formatAnswer (currency : CurrencyCode) (r : AskResolved) : List Char :=
  r.clubName ++ (apos :: "s revenue in ".toList) ++ natDigits r.year ++
    " was ".toList ++ revenueFormatted currency r.convertedRevenue ++
    " (".toList ++ currencyCodeStr currency ++
    "). The year-over-year change was ".toList ++ yoyTextOf r.yoyPercentage ++ ['.']

/-- The route's observable outcome: an answer or a classified error. -/
inductive AskResult where
  | answer (text : List Char)
  | failure (e : AskError)
deriving DecidableEq

/-- The whole `POST` handler after JSON parsing, for a string question. -/
def askPipeline (getClubByName : List Char → Option Club)
    (getClubFinancialByYear : ℤ → ℕ → Option Financial)
    (getAllClubFinancials : ℤ → List Financial)
    (currency : CurrencyCode) (question : List Char) : AskResult :=
  match askResolve getClubByName getClubFinancialByYear getAllClubFinancials
      currency question with
  | .error e => .failure e
  | .ok r => .answer (formatAnswer currency r)

/-- C6.  The pipeline fails with `MissingYear` iff the question has no
standalone `20xx` token (word boundaries on both sides); when tokens exist,
the year is the value of the leftmost one. -/
theorem claimC6_missing_year_iff_no_token (gc : List Char → Option Club)
    (gf : ℤ → ℕ → Option Financial) (ga : ℤ → List Financial)
    (currency : CurrencyCode) (q : List Char) :
    (askPipeline gc gf ga currency q = .failure .missingYear ↔
      ∀ i, standaloneYearAt q i = false) ∧
    (∀ i, standaloneYearAt q i = true →
      (∀ j, j < i → standaloneYearAt q j = false) →
      extractYear q = some (yearValueAt q i)) := by
  constructor
  · rw [← extractYear_none_iff]
    cases hy : extractYear q with
    | none => simp [askPipeline, askResolve, hy]
    | some y =>
      simp only [askPipeline, askResolve, hy]
      constructor
      · intro h
        exfalso
        split at h
        · rename_i x e heq
          rw [AskResult.failure.injEq] at h
          subst h
          split at heq
          · simp at heq
          · split at heq
            · simp at heq
            · split at heq
              · simp at heq
              · split at heq
                · simp at heq
                · simp at heq
        · simp at h
      · intro h
        exact absurd h (by simp)
  · exact fun i => extractYear_first_match q i

theorem claimC6_witness :
    extractYear "2022".toList = some (yearValueAt "2022".toList 0) :=
  (claimC6_missing_year_iff_no_token (fun _ => none) (fun _ _ => none) (fun _ => [])
    CurrencyCode.GBP "2022".toList).2 0 (by decide) (fun j hj => absurd hj (by omega))

/-- C7.  Club-name extraction tries the three patterns in fixed order with the
first match winning (trimmed); in particular a question matching both rule 1
and rule 3 resolves via rule 1; if no pattern matches (and a year was found),
the pipeline fails with `MissingClubName`. -/
theorem claimC7_club_pattern_precedence (gc : List Char → Option Club)
    (gf : ℤ → ℕ → Option Financial) (ga : ℤ → List Financial)
    (currency : CurrencyCode) (q : List Char) :
    (∀ m, pat1 q = some m → extractClubName q = some (trimStr m)) ∧
    (pat1 q = none → ∀ m, pat2 q = some m → extractClubName q = some (trimStr m)) ∧
    (pat1 q = none → pat2 q = none → ∀ m, pat3 q = some m →
      extractClubName q = some (trimStr m)) ∧
    (extractClubName q = none ↔ pat1 q = none ∧ pat2 q = none ∧ pat3 q = none) ∧
    (askPipeline gc gf ga currency q = .failure .missingClubName ↔
      (extractYear q).isSome ∧ extractClubName q = none) := by
  refine ⟨?_, ?_, ?_, ?_, ?_⟩
  · intro m hm
    simp [extractClubName, clubPatterns, firstPatternMatch, hm]
  · intro h1 m hm
    simp [extractClubName, clubPatterns, firstPatternMatch, h1, hm]
  · intro h1 h2 m hm
    simp [extractClubName, clubPatterns, firstPatternMatch, h1, h2, hm]
  · cases h1 : pat1 q <;> cases h2 : pat2 q <;> cases h3 : pat3 q <;>
      simp [extractClubName, clubPatterns, firstPatternMatch, h1, h2, h3]
  · cases hy : extractYear q with
    | none => simp [askPipeline, askResolve, hy]
    | some y =>
      simp only [askPipeline, askResolve, hy, Option.isSome_some, true_and]
      cases hc : extractClubName q with
      | none => simp [hc]
      | some name =>
        simp only [hc]
        constructor
        · intro h
          exfalso
          split at h
          · rename_i x e heq
            rw [AskResult.failure.injEq] at h
            subst h
            split at heq
            · simp at heq
            · split at heq
              · simp at heq
              · split at heq
                · simp at heq
                · simp at heq
          · simp at h
        · intro h
          exact absurd h (by simp)

theorem claimC7_witness :
    extractClubName ("What was Leeds".toList ++ apos :: "s revenue in 2022".toList) =
      some (trimStr "Leeds".toList) :=
  (claimC7_club_pattern_precedence (fun _ => none) (fun _ _ => none) (fun _ => [])
    CurrencyCode.GBP ("What was Leeds".toList ++ apos :: "s revenue in 2022".toList)).1
    "Leeds".toList (by decide)

theorem digitChar_ne_dot (d : ℕ) (hd : d < 10) : ¬ digitChar d = '.' := by
  interval_cases d <;> decide

theorem digitChar_ne_comma (d : ℕ) (hd : d < 10) : ¬ digitChar d = ',' := by
  interval_cases d <;> decide

theorem natDigitsAux_mem (fuel n : ℕ) :
    ∀ c ∈ natDigitsAux fuel n, ∃ d, d < 10 ∧ c = digitChar d := by
  induction fuel generalizing n with
  | zero => intro c hc; simp [natDigitsAux] at hc
  | succ fuel ih =>
    intro c hc
    cases n with
    | zero => simp [natDigitsAux] at hc
    | succ n =>
      rw [show natDigitsAux (fuel + 1) (n + 1) =
          digitChar ((n + 1) % 10) :: natDigitsAux fuel ((n + 1) / 10) from rfl] at hc
      rcases List.mem_cons.mp hc with rfl | hc
      · exact ⟨(n + 1) % 10, Nat.mod_lt _ (by norm_num), rfl⟩
      · exact ih _ c hc

theorem natDigits_mem (n : ℕ) : ∀ c ∈ natDigits n, ∃ d, d < 10 ∧ c = digitChar d := by
  intro c hc
  unfold natDigits at hc
  split at hc
  · simp at hc
    exact ⟨0, by norm_num, by rw [hc]; rfl⟩
  · rw [List.mem_reverse] at hc
    exact natDigitsAux_mem n n c hc

theorem mem_commaRev (l : List Char) :
    ∀ (i : ℕ), ∀ c ∈ commaRev i l, c ∈ l ∨ c = ',' := by
  induction l with
  | nil => intro i c hc; simp [commaRev] at hc
  | cons a l ih =>
    intro i c hc
    rw [commaRev] at hc
    split at hc
    · rcases List.mem_cons.mp hc with rfl | hc
      · right; rfl
      · rcases List.mem_cons.mp hc with rfl | hc
        · left; exact List.mem_cons_self _ _
        · rcases ih 1 c hc with h | h
          · left; exact List.mem_cons_of_mem _ h
          · right; exact h
    · rcases List.mem_cons.mp hc with rfl | hc
      · left; exact List.mem_cons_self _ _
      · rcases ih (i + 1) c hc with h | h
        · left; exact List.mem_cons_of_mem _ h
        · right; exact h

theorem mem_groupDigits (ds : List Char) : ∀ c ∈ groupDigits ds, c ∈ ds ∨ c = ',' := by
  intro c hc
  unfold groupDigits at hc
  rw [List.mem_reverse] at hc
  rcases mem_commaRev ds.reverse 0 c hc with h | h
  · left; exact List.mem_reverse.mp h
  · right; exact h

theorem takeWhile_append_all {p : Char → Bool} {l1 l2 : List Char}
    (h : ∀ c ∈ l1, p c = true) :
    (l1 ++ l2).takeWhile p = l1 ++ l2.takeWhile p := by
  induction l1 with
  | nil => simp
  | cons a l ih =>
    have ha : p a = true := h a (List.mem_cons_self a l)
    simp only [List.cons_append, List.takeWhile_cons, ha, if_true]
    rw [ih (fun c hc => h c (List.mem_cons_of_mem a hc))]

theorem fracLen_no_dot (s : List Char) (h : ∀ c ∈ s, ¬ c = '.') : fracLen s = 0 := by
  unfold fracLen
  have hall : ∀ c ∈ s.reverse, (fun c => !(c == '.')) c = true := by
    intro c hc
    simpa using h c (List.mem_reverse.mp hc)
  have ht : s.reverse.takeWhile (fun c => !(c == '.')) = s.reverse := by
    have := @takeWhile_append_all (fun c => !(c == '.')) s.reverse [] hall
    simpa using this
  simp [ht]

theorem fracLen_append_frac (pre frac : List Char) (hfrac : ∀ c ∈ frac, ¬ c = '.') :
    fracLen (pre ++ '.' :: frac) = frac.length := by
  unfold fracLen
  have hall : ∀ c ∈ frac.reverse, (fun c => !(c == '.')) c = true := by
    intro c hc
    simpa using hfrac c (List.mem_reverse.mp hc)
  have hrev : (pre ++ '.' :: frac).reverse = frac.reverse ++ '.' :: pre.reverse := by
    simp
  rw [hrev, takeWhile_append_all hall]
  have hstop : ('.' :: pre.reverse).takeWhile (fun c => !(c == '.')) = [] := by
    simp [List.takeWhile_cons]
  rw [hstop, List.append_nil]
  simp only [List.length_reverse, List.length_append, List.length_cons]
  rw [if_neg (by omega)]

theorem mem_fracPart3 (r : ℕ) (hr : r < 1000) :
    ∀ c ∈ fracPart3 r, ∃ d, d < 10 ∧ c = digitChar d := by
  intro c hc
  unfold fracPart3 at hc
  rw [List.mem_reverse] at hc
  have hc' := (List.dropWhile_sublist _).subset hc
  rw [List.mem_reverse] at hc'
  have h1 : r / 100 < 10 := by
    rw [Nat.div_lt_iff_lt_mul (by norm_num)]
    omega
  rcases List.mem_cons.mp hc' with rfl | hc'
  · exact ⟨r / 100, h1, rfl⟩
  · rcases List.mem_cons.mp hc' with rfl | hc'
    · exact ⟨r / 10 % 10, Nat.mod_lt _ (by norm_num), rfl⟩
    · rcases List.mem_cons.mp hc' with rfl | hc'
      · exact ⟨r % 10, Nat.mod_lt _ (by norm_num), rfl⟩
      · simp at hc'

theorem fracPart3_length_le (r : ℕ) : (fracPart3 r).length ≤ 3 := by
  unfold fracPart3
  rw [List.length_reverse]
  exact le_trans (List.dropWhile_sublist _).length_le (by simp)

theorem mem_toLocaleStringNN_parts (q : ℚ) :
    ∀ c ∈ groupDigits (natDigits ((⌊q * 1000 + 1 / 2⌋).toNat / 1000)), ¬ c = '.' := by
  intro c hc
  rcases mem_groupDigits _ c hc with h | h
  · obtain ⟨d, hd, rfl⟩ := natDigits_mem _ c h
    exact digitChar_ne_dot d hd
  · rw [h]; decide

theorem fracLen_pre_toLocaleStringNN (pre : List Char) (hpre : ∀ c ∈ pre, ¬ c = '.')
    (q : ℚ) : fracLen (pre ++ toLocaleStringNN q) ≤ 3 := by
  unfold toLocaleStringNN
  by_cases hf : (fracPart3 ((⌊q * 1000 + 1 / 2⌋).toNat % 1000)).isEmpty
  · simp only [hf, if_true, List.append_nil]
    have h0 : fracLen (pre ++ groupDigits (natDigits ((⌊q * 1000 + 1 / 2⌋).toNat / 1000))) = 0 := by
      apply fracLen_no_dot
      intro c hc
      rcases List.mem_append.mp hc with h | h
      · exact hpre c h
      · exact mem_toLocaleStringNN_parts q c h
    omega
  · rw [Bool.not_eq_true] at hf
    simp only [hf, Bool.false_eq_true, if_false]
    rw [← List.append_assoc, fracLen_append_frac]
    · exact fracPart3_length_le _
    · intro c hc
      obtain ⟨d, hd, rfl⟩ := mem_fracPart3 _ (Nat.mod_lt _ (by norm_num)) c hc
      exact digitChar_ne_dot d hd

theorem fracLen_toLocaleStr_le_three (q : ℚ) : fracLen (toLocaleStr q) ≤ 3 := by
  unfold toLocaleStr
  split
  · have h := fracLen_pre_toLocaleStringNN ['-'] (by decide) (-q)
    simpa using h
  · have h := fracLen_pre_toLocaleStringNN [] (by simp) q
    simpa using h

theorem fracLen_pre_toFixed1NN (pre : List Char) (_hpre : ∀ c ∈ pre, ¬ c = '.')
    (q : ℚ) : fracLen (pre ++ toFixed1NN q) = 1 := by
  unfold toFixed1NN
  have hsplit : pre ++ (natDigits ((⌊q * 10 + 1 / 2⌋).toNat / 10) ++
      ['.', digitChar ((⌊q * 10 + 1 / 2⌋).toNat % 10)]) =
      (pre ++ natDigits ((⌊q * 10 + 1 / 2⌋).toNat / 10)) ++
      '.' :: [digitChar ((⌊q * 10 + 1 / 2⌋).toNat % 10)] := by
    simp
  rw [hsplit, fracLen_append_frac]
  · rfl
  · intro c hc
    rcases List.mem_cons.mp hc with rfl | hc
    · exact digitChar_ne_dot _ (Nat.mod_lt _ (by norm_num))
    · simp at hc

theorem fracLen_toFixed1_eq_one (q : ℚ) : fracLen (toFixed1 q) = 1 := by
  unfold toFixed1
  split
  · have h := fracLen_pre_toFixed1NN ['-'] (by decide) (-q)
    simpa using h
  · have h := fracLen_pre_toFixed1NN [] (by simp) q
    simpa using h

/-- The ungrouped rendering the claim's "thousands-grouped" is relative to:
identical to `toLocaleStr` except that no separators are inserted. -/
def toLocaleStrUngroupedNN (q : ℚ) : List Char :=
  let m : ℕ := (⌊q * 1000 + 1 / 2⌋).toNat
  let frac := fracPart3 (m % 1000)
  natDigits (m / 1000) ++ (if frac.isEmpty then [] else '.' :: frac)

/-- Ungrouped rendering, signed. -/
def toLocaleStrUngrouped (q : ℚ) : List Char :=
  if q < 0 then '-' :: toLocaleStrUngroupedNN (-q) else toLocaleStrUngroupedNN q

theorem filter_comma_commaRev (l : List Char) :
    ∀ i, (commaRev i l).filter (fun c => !(c == ',')) =
      l.filter (fun c => !(c == ',')) := by
  induction l with
  | nil => intro i; rfl
  | cons a l ih =>
    intro i
    rw [commaRev]
    split
    · simp only [List.filter_cons]
      norm_num
      rw [ih 1]
    · simp only [List.filter_cons]
      rw [ih (i + 1)]

theorem filter_comma_groupDigits (ds : List Char) (hds : ∀ c ∈ ds, ¬ c = ',') :
    (groupDigits ds).filter (fun c => !(c == ',')) = ds := by
  unfold groupDigits
  rw [List.filter_reverse, filter_comma_commaRev, List.filter_reverse, List.reverse_reverse]
  apply List.filter_eq_self.mpr
  intro c hc
  simpa using hds c hc

theorem filter_comma_toLocaleStringNN (q : ℚ) :
    (toLocaleStringNN q).filter (fun c => !(c == ',')) = toLocaleStrUngroupedNN q := by
  have hng : (groupDigits (natDigits ((⌊q * 1000 + 1 / 2⌋).toNat / 1000))).filter
      (fun c => !(c == ',')) = natDigits ((⌊q * 1000 + 1 / 2⌋).toNat / 1000) := by
    apply filter_comma_groupDigits
    intro c hc
    obtain ⟨d, hd, rfl⟩ := natDigits_mem _ c hc
    exact digitChar_ne_comma d hd
  unfold toLocaleStringNN toLocaleStrUngroupedNN
  by_cases hf : (fracPart3 ((⌊q * 1000 + 1 / 2⌋).toNat % 1000)).isEmpty
  · simp only [hf, if_true, List.append_nil]
    exact hng
  · rw [Bool.not_eq_true] at hf
    simp only [hf, Bool.false_eq_true, if_false]
    rw [List.filter_append, hng, List.filter_cons]
    simp only [show ((fun c => !(c == ',')) '.') = true from rfl, if_true]
    congr 1
    congr 1
    apply List.filter_eq_self.mpr
    intro c hc
    obtain ⟨d, hd, rfl⟩ := mem_fracPart3 _ (Nat.mod_lt _ (by norm_num)) c hc
    simpa using digitChar_ne_comma d hd

theorem filter_comma_toLocaleStr (q : ℚ) :
    (toLocaleStr q).filter (fun c => !(c == ',')) = toLocaleStrUngrouped q := by
  unfold toLocaleStr toLocaleStrUngrouped
  split
  · rw [List.filter_cons]
    simp only [show ((fun c => !(c == ',')) '-') = true from rfl, if_true]
    exact congrArg (List.cons '-') (filter_comma_toLocaleStringNN (-q))
  · exact filter_comma_toLocaleStringNN q

/-- C8 as stated: every successful query renders the fixed template, with the
amount shown with at most 2 decimal places and the YoY percentage with exactly
1 decimal place (or the fixed N/A text when null). -/
def claimC8Statement : Prop :=
  ∀ (gc : List Char → Option Club) (gf : ℤ → ℕ → Option Financial)
    (ga : ℤ → List Financial) (currency : CurrencyCode) (q : List Char)
    (r : AskResolved),
    askResolve gc gf ga currency q = Except.ok r →
    askPipeline gc gf ga currency q = AskResult.answer (formatAnswer currency r) ∧
    (∀ v, r.convertedRevenue = some v → fracLen (toLocaleStr v) ≤ 2) ∧
    (∀ p, r.yoyPercentage = some p → fracLen (toFixed1 p) = 1) ∧
    (r.yoyPercentage = none → yoyTextOf none = "N/A (no prior year data)".toList)

/-- A concrete club whose 2020 revenue is `0.125` (GBP millions). -/
def clubX : Club := ⟨1, "X".toList⟩

/-- The 2020 record of `clubX`. -/
def finX : Financial := ⟨1, 1, 2020, some (1 / 8), none, none⟩

/-- Club lookup knowing only `clubX`. -/
def gcX : List Char → Option Club := fun n => if n = "X".toList then some clubX else none

/-- Year lookup returning the 2020 record. -/
def gfX : ℤ → ℕ → Option Financial := fun _ y => if y = 2020 then some finX else none

/-- All records of any club: just the 2020 one. -/
def gaX : ℤ → List Financial := fun _ => [finX]

/-- The question asked in the concrete scenario. -/
def qX : List Char := "X revenue in 2020".toList

theorem calculateYoY_finX :
    calculateYoY [finX] = [⟨1, 1, 2020, 1 / 8, 0, some 0, none, none⟩] := by
  norm_num [finX, calculateYoY, sortByYear, List.insertionSort, List.orderedInsert, byYear,
    List.range_succ, metricAt, toNumber]

theorem askResolve_X :
    askResolve gcX gfX gaX CurrencyCode.GBP qX =
      .ok ⟨"X".toList, 2020, some (1 / 8), none⟩ := by
  have hy : extractYear qX = some 2020 := by decide
  have hc : extractClubName qX = some "X".toList := by decide
  have hm0 : metricAt (sortByYear [finX]) 0 = ⟨1, 1, 2020, 1 / 8, 0, some 0, none, none⟩ := by
    norm_num [finX, sortByYear, List.insertionSort, List.orderedInsert, byYear, metricAt,
      toNumber]
  norm_num [askResolve, hy, hc, gcX, gfX, gaX, clubX, hm0, convertCurrency, List.find?]

theorem toLocaleStr_eighth : toLocaleStr (1 / 8 : ℚ) = "0.125".toList := by
  have hm : (⌊(1 / 8 : ℚ) * 1000 + 1 / 2⌋ : ℤ) = 125 := by
    rw [Int.floor_eq_iff]
    constructor <;> norm_num
  rw [toLocaleStr, if_neg (by norm_num)]
  simp only [toLocaleStringNN, hm]
  decide

/-- C8 fails on the code: the route formats the amount with a bare
`toLocaleString()`, whose default is up to 3 fractional digits, not 2.  For
club `X` with 2020 revenue `0.125`, the successful answer shows `£0.125M` —
three decimal places. -/
theorem claimC8_counterexample : ¬ claimC8Statement := by
  intro h
  have h2 := (h gcX gfX gaX CurrencyCode.GBP qX ⟨"X".toList, 2020, some (1 / 8), none⟩
    askResolve_X).2.1 (1 / 8) rfl
  rw [toLocaleStr_eighth] at h2
  exact absurd h2 (by decide)

/-- C8 amended.  Every successful query renders the fixed template sentence;
the amount is thousands-grouped (removing the separators recovers the plain
rendering) with at most **3** decimal places (`toLocaleString()` default);
the YoY percentage has exactly 1 decimal place, with a leading `+` exactly
when positive, and the fixed N/A text exactly when null. -/
theorem claimC8_answer_shape_amended (gc : List Char → Option Club)
    (gf : ℤ → ℕ → Option Financial) (ga : ℤ → List Financial)
    (currency : CurrencyCode) (q : List Char) (r : AskResolved)
    (h : askResolve gc gf ga currency q = .ok r) :
    askPipeline gc gf ga currency q = .answer (formatAnswer currency r) ∧
    (∀ v, r.convertedRevenue = some v →
      fracLen (toLocaleStr v) ≤ 3 ∧
      (toLocaleStr v).filter (fun c => !(c == ',')) = toLocaleStrUngrouped v) ∧
    (∀ p, r.yoyPercentage = some p →
      fracLen (toFixed1 p) = 1 ∧
      (0 < p → yoyTextOf (some p) = '+' :: (toFixed1 p ++ ['%'])) ∧
      (¬ 0 < p → yoyTextOf (some p) = toFixed1 p ++ ['%'])) ∧
    (r.yoyPercentage = none → yoyTextOf none = "N/A (no prior year data)".toList) := by
  refine ⟨by simp [askPipeline, h], ?_, ?_, fun _ => rfl⟩
  · intro v _
    exact ⟨fracLen_toLocaleStr_le_three v, filter_comma_toLocaleStr v⟩
  · intro p _
    refine ⟨fracLen_toFixed1_eq_one p, ?_, ?_⟩
    · intro hpos
      simp [yoyTextOf, hpos]
    · intro hpos
      simp [yoyTextOf, hpos]

theorem claimC8_witness :
    askPipeline gcX gfX gaX CurrencyCode.GBP qX =
      .answer (formatAnswer CurrencyCode.GBP ⟨"X".toList, 2020, some (1 / 8), none⟩) ∧
    (∀ v, (AskResolved.mk "X".toList 2020 (some (1 / 8)) none).convertedRevenue = some v →
      fracLen (toLocaleStr v) ≤ 3 ∧
      (toLocaleStr v).filter (fun c => !(c == ',')) = toLocaleStrUngrouped v) ∧
    (∀ p, (AskResolved.mk "X".toList 2020 (some (1 / 8)) none).yoyPercentage = some p →
      fracLen (toFixed1 p) = 1 ∧
      (0 < p → yoyTextOf (some p) = '+' :: (toFixed1 p ++ ['%'])) ∧
      (¬ 0 < p → yoyTextOf (some p) = toFixed1 p ++ ['%'])) ∧
    ((AskResolved.mk "X".toList 2020 (some (1 / 8)) none).yoyPercentage = none →
      yoyTextOf none = "N/A (no prior year data)".toList) :=
  claimC8_answer_shape_amended gcX gfX gaX CurrencyCode.GBP qX _ askResolve_X
